import Mathlib

/-!
Shallow embedding of the double-mapped circular byte buffer implemented in
src/CircularBuffer.h and src/CircularBuffer.c, together with proofs about the
claims of its specification.

Modelling conventions.

The C structure CircularBuffer_t holds a mutex, a condition variable, an empty
flag, a read position, a write position, a file descriptor, a buffer pointer
and a size.  The mutex and condition variable are the synchronization gate:
in this sequential embedding every lock acquisition succeeds, so they carry no
state.  The byte contents of the physical backing store are modelled as a
total function from physical offsets to byte values; thanks to the mirror
mapping, the byte visible at virtual offset j of the 2*size window is the
physical byte at j mod size, which is how every copy is rendered below.

A call that does not return normally is modelled as Option.none:

* CircularBuffer_writeChunk evaluates a remainder modulo the capacity before
  any other test (line 225 of the source).  When the capacity field is zero
  this is a division by zero, undefined behaviour in C, so the model returns
  none in that case.
* CircularBuffer_readChunk first waits on the condition variable while the
  empty flag is set (lines 281-283).  In a sequential model no producer can
  ever signal, so a call on an empty ring never returns: none.  After the
  wait it, too, evaluates a remainder modulo the capacity, so a zero capacity
  with a clear empty flag is likewise none.

CircularBuffer_init performs five fallible host operations: memfd_create,
ftruncate, the 2*size PROT_NONE reservation and the two MAP_FIXED mappings.
Their outcomes are inputs of the model (SysEnv), and the model records which
operating-system resources are still held when init returns (Resources),
mirroring exactly which acquisitions the source performs before each exit:
the source releases nothing on its error paths.  The helper
CircularBuffer_memfd_create returns the value the C helper would return; note
that the C helper returns 0, not -1, when the underlying syscall fails, so
SysEnv carries both the returned value and whether a descriptor was actually
created.
-/

/-- The LONG_MAX bound used by the size check of CircularBuffer_init
(line 133 of the source), for the usual 64-bit host. -/
def LONG_MAX : Nat := 2 ^ 63 - 1

/-- State of a CircularBuffer_t object.  Field names follow the C struct;
position.read and position.write are flattened; mem is the physical backing
store content (one byte value per physical offset). -/
@[ext]
structure CircularBuffer where
  fd : Int
  buffer : Option Int
  size : Nat
  empty : Bool
  read : Nat
  write : Nat
  mem : Nat → Nat

/-- The free-space quantity computed by CircularBuffer_writeChunk at
line 225: (read + size - write) % size. -/
def free_bytes_code (cb : CircularBuffer) : Nat :=
  (cb.read + cb.size - cb.write) % cb.size

/-- The available-data quantity computed by CircularBuffer_readChunk at
line 285: ((write + size) - read) % size. -/
def available_bytes_code (cb : CircularBuffer) : Nat :=
  ((cb.write + cb.size) - cb.read) % cb.size

/-- Modelled from the spec (section 4.3 together with the data-model table):
free_bytes is the capacity when the empty flag is set, otherwise
(r + C - w) mod C. -/
def free_bytes_spec (cb : CircularBuffer) : Nat :=
  if cb.empty then cb.size else (cb.read + cb.size - cb.write) % cb.size

/-- Modelled from the spec (section 4.3 together with the data-model table):
available_bytes is 0 when the empty flag is set, the full capacity when the
cursors coincide with the flag clear, otherwise (w + C - r) mod C. -/
def available_bytes_spec (cb : CircularBuffer) : Nat :=
  if cb.empty then 0
  else if cb.read = cb.write then cb.size
  else ((cb.write + cb.size) - cb.read) % cb.size

/-- CircularBuffer_advanceReadPos (lines 65-70): advance the read position
modulo size, then set the empty flag if the new read position equals the
write position. -/
def CircularBuffer_advanceReadPos (cbuff : CircularBuffer) (n : Nat) : CircularBuffer :=
  let r := (cbuff.read + n) % cbuff.size
  { cbuff with read := r, empty := if r = cbuff.write then true else cbuff.empty }

/-- CircularBuffer_advanceWritePos (lines 77-82): advance the write position
modulo size, then clear the empty flag if n is nonzero. -/
def CircularBuffer_advanceWritePos (cbuff : CircularBuffer) (n : Nat) : CircularBuffer :=
  { cbuff with write := (cbuff.write + n) % cbuff.size,
               empty := if n ≠ 0 then false else cbuff.empty }

/-- CircularBuffer_create (lines 88-98): fd 0, NULL buffer, size 0, empty
flag set, both positions 0.  The backing store does not exist yet; its model
content is the all-zero function (memfd memory is zero-initialised). -/
def CircularBuffer_create : CircularBuffer :=
  { fd := 0, buffer := none, size := 0, empty := true, read := 0, write := 0,
    mem := fun _ => 0 }

/-- Effect on the physical backing store of memcpy into the doubly mapped
window at virtual offset w: byte i of the source lands at physical offset
(w + i) mod C.  For length at most C no two window offsets alias the same
physical byte, so this is exact whatever order memcpy copies in; for longer
in-window lengths the model fixes the ascending order (a later aliased byte
wins), an order memcpy does not guarantee — no theorem below relies on the
memory content in that regime. -/
def copyIn (mem : Nat → Nat) (C w : Nat) (src : Nat → Nat) : Nat → (Nat → Nat)
  | 0 => mem
  | Nat.succ n => fun j => if j = (w + n) % C then src n else copyIn mem C w src n j

/-- Bytes delivered by memcpy out of the doubly mapped window starting at
virtual offset r: byte i is the physical byte at (r + i) mod C. -/
def readBytes (mem : Nat → Nat) (C : Nat) : Nat → Nat → List Nat
  | _, 0 => []
  | r, Nat.succ k => mem (r % C) :: readBytes mem C (r + 1) k

/-- CircularBuffer_writeChunk (lines 220-258).  Computes free_bytes by a
remainder modulo the size before anything else, hence none (undefined
behaviour) when the size is zero.  If the empty flag is set or the length
fits the free space, the memcpy at line 232 writes length bytes at virtual
offsets write, write + 1, ...: when write + length exceeds the 2*size mapped
window this runs past the double mapping — out-of-bounds, no normal return —
modelled as none; within the window the mirror mapping lands each byte at
its physical offset modulo size, the write position advances and the length
is returned.  Otherwise return 0 leaving the state untouched. -/
def CircularBuffer_writeChunk (cbuff : CircularBuffer) (src : Nat → Nat) (length : Nat) :
    Option (CircularBuffer × Nat) :=
  if cbuff.size = 0 then none
  else if cbuff.empty = true ∨ length ≤ free_bytes_code cbuff then
    if 2 * cbuff.size < cbuff.write + length then none
    else
      some (CircularBuffer_advanceWritePos
              { cbuff with mem := copyIn cbuff.mem cbuff.size cbuff.write src length }
              length,
            length)
  else
    some (cbuff, 0)

/-- The byte count selected by CircularBuffer_readChunk at line 289:
bytes_available when it is below the requested length, the requested length
otherwise. -/
def bytesReadCount (cbuff : CircularBuffer) (length : Nat) : Nat :=
  if available_bytes_code cbuff < length then available_bytes_code cbuff else length

/-- CircularBuffer_readChunk (lines 267-315) for non-null arguments.  Waits
while the empty flag is set — in this sequential model such a call never
returns, hence none; likewise none for the modulo by a zero size after the
wait.  Otherwise copies min(available, length) bytes from the read position,
advances the read position by that amount and returns it together with the
bytes delivered to the target. -/
def CircularBuffer_readChunk (cbuff : CircularBuffer) (length : Nat) :
    Option (CircularBuffer × List Nat × Nat) :=
  if cbuff.empty = true then none
  else if cbuff.size = 0 then none
  else
    some (CircularBuffer_advanceReadPos cbuff (bytesReadCount cbuff length),
          readBytes cbuff.mem cbuff.size cbuff.read (bytesReadCount cbuff length),
          bytesReadCount cbuff length)

/-- CircularBuffer_size (lines 339-353) for a non-null argument. -/
def CircularBuffer_size (cbuff : CircularBuffer) : Nat :=
  cbuff.size

/-- CircularBuffer_empty (lines 322-332) for a non-null argument. -/
def CircularBuffer_empty (cbuff : CircularBuffer) : Bool :=
  cbuff.empty

/-- CircularBuffer_free (lines 359-389), field-level effect: zero the fd,
null the buffer pointer, zero both positions.  The size and empty fields are
not touched by the source. -/
def CircularBuffer_free (cbuff : CircularBuffer) : CircularBuffer :=
  { cbuff with fd := 0, buffer := none, read := 0, write := 0 }

/-- Outcomes of the host operations CircularBuffer_init depends on.
memfdRet is the value CircularBuffer_memfd_create returns; memfdOk records
whether the underlying syscall actually created a descriptor (the C helper
returns 0 rather than -1 when the syscall fails, and -1 when the descriptor
exists but exceeds INT_MAX, so the two are distinct). -/
structure SysEnv where
  pageSize : Nat
  memfdRet : Int
  memfdOk : Bool
  ftruncOk : Bool
  reserveOk : Bool
  reserveAddr : Int
  map1Ok : Bool
  map2Ok : Bool

/-- Operating-system objects still held when CircularBuffer_init returns:
the memfd descriptor, the 2*size reservation, and the two fixed mappings. -/
structure Resources where
  fdOpen : Bool
  reserved : Bool
  mapped1 : Bool
  mapped2 : Bool

/-- Result of CircularBuffer_init: the returned boolean, the ring state, and
the resources held at return. -/
structure InitResult where
  ok : Bool
  cbuff : CircularBuffer
  res : Resources

/-- The rounded capacity computed at lines 143-152:
(size / page + (size % page > 0 ? 1 : 0)) * page. -/
def realSize (sz page : Nat) : Nat :=
  (sz / page + if 0 < sz % page then 1 else 0) * page

/-- CircularBuffer_init (lines 106-211) for a non-null argument.  The checks
and assignments follow the source order: size guard, memfd_create (the
returned value is stored in fd before the < 0 test), ftruncate, the
PROT_NONE reservation (on failure the source stores MAP_FAILED, modelled as
-1, in the buffer field), the two MAP_FIXED mappings, and only on full
success the assignments size = realSize, write = 0, read = 0.  No error path
releases anything, exactly as in the source, so the held resources are
precisely those acquired before the failing step. -/
def CircularBuffer_init (cbuff : CircularBuffer) (sz : Nat) (env : SysEnv) : InitResult :=
  if sz < 1 ∨ LONG_MAX < sz then
    ⟨false, cbuff, ⟨false, false, false, false⟩⟩
  else if env.memfdRet < 0 then
    ⟨false, { cbuff with fd := env.memfdRet }, ⟨env.memfdOk, false, false, false⟩⟩
  else if env.ftruncOk = false then
    ⟨false, { cbuff with fd := env.memfdRet }, ⟨env.memfdOk, false, false, false⟩⟩
  else if env.reserveOk = false then
    ⟨false, { cbuff with fd := env.memfdRet, buffer := some (-1) },
     ⟨env.memfdOk, false, false, false⟩⟩
  else if env.map1Ok = false then
    ⟨false, { cbuff with fd := env.memfdRet, buffer := some env.reserveAddr },
     ⟨env.memfdOk, true, false, false⟩⟩
  else if env.map2Ok = false then
    ⟨false, { cbuff with fd := env.memfdRet, buffer := some env.reserveAddr },
     ⟨env.memfdOk, true, true, false⟩⟩
  else
    ⟨true, { cbuff with fd := env.memfdRet, buffer := some env.reserveAddr, size := realSize sz env.pageSize, read := 0, write := 0 },
     ⟨env.memfdOk, true, true, true⟩⟩

/-- CircularBuffer_init applied to a freshly created ring, the lifecycle the
test driver follows (main.c lines 166-167). -/
def initRing (sz : Nat) (env : SysEnv) : InitResult :=
  CircularBuffer_init CircularBuffer_create sz env

/-- States of the ring reachable through initialize, writeChunk and
readChunk, the class the accounting claim quantifies over.  The page size of
the host is positive (getpagesize never returns 0). -/
inductive Reachable : CircularBuffer → Prop
  | init (sz : Nat) (env : SysEnv) (hpos : 0 < env.pageSize)
      (hok : (initRing sz env).ok = true) : Reachable (initRing sz env).cbuff
  | write (cb cb' : CircularBuffer) (src : Nat → Nat) (n k : Nat)
      (h : Reachable cb)
      (hw : CircularBuffer_writeChunk cb src n = some (cb', k)) : Reachable cb'
  | read (cb cb' : CircularBuffer) (data : List Nat) (n k : Nat)
      (h : Reachable cb)
      (hr : CircularBuffer_readChunk cb n = some (cb', data, k)) : Reachable cb'

/-- Well-formedness of an active ring: positive capacity and both cursors in
range. -/
def WF (cb : CircularBuffer) : Prop :=
  0 < cb.size ∧ cb.read < cb.size ∧ cb.write < cb.size

/-- A host environment in which every operation succeeds; page size 4096. -/
def okEnv : SysEnv :=
  { pageSize := 4096, memfdRet := 5, memfdOk := true, ftruncOk := true,
    reserveOk := true, reserveAddr := 65536, map1Ok := true, map2Ok := true }

/-- A host environment in which memfd_create succeeds (descriptor 5) and the
subsequent ftruncate fails. -/
def badEnv : SysEnv :=
  { pageSize := 4096, memfdRet := 5, memfdOk := true, ftruncOk := false,
    reserveOk := true, reserveAddr := 65536, map1Ok := true, map2Ok := true }

/-- The ring produced by a successful initialize of 4096 bytes on a
4096-byte-page host: capacity 4096, both cursors 0, empty flag set. -/
def initedCB : CircularBuffer := (initRing 4096 okEnv).cbuff

/-- A constant source buffer. -/
def src7 : Nat → Nat := fun _ => 7

/-- A mid-life active ring: capacity 4096, 3000 bytes available, cursors in
range, empty flag clear. -/
def sampleCB : CircularBuffer :=
  { fd := 5, buffer := some 65536, size := 4096, empty := false,
    read := 0, write := 3000, mem := fun i => i % 256 }

/-- An active ring with 96 free bytes: capacity 4096, read 0, write 4000,
empty flag clear. -/
def tightCB : CircularBuffer :=
  { fd := 5, buffer := some 65536, size := 4096, empty := false,
    read := 0, write := 4000, mem := fun _ => 0 }

/-- A full active ring: coinciding cursors with the empty flag clear. -/
def fullFlagCB : CircularBuffer :=
  { fd := 5, buffer := some 65536, size := 4096, empty := false,
    read := 0, write := 0, mem := fun _ => 0 }

lemma readBytes_length (mem : Nat → Nat) (C : Nat) :
    ∀ (k r : Nat), (readBytes mem C r k).length = k := by
  intro k
  induction k with
  | zero => intro r; rfl
  | succ k ih => intro r; simp only [readBytes, List.length_cons, ih]

lemma readBytes_get (mem : Nat → Nat) (C : Nat) :
    ∀ (k r i : Nat) (h : i < (readBytes mem C r k).length),
      (readBytes mem C r k).get ⟨i, h⟩ = mem ((r + i) % C) := by
  intro k
  induction k with
  | zero =>
    intro r i h
    simp [readBytes] at h
  | succ k ih =>
    intro r i h
    cases i with
    | zero => simp [readBytes]
    | succ i =>
      have h' : i < (readBytes mem C (r + 1) k).length := by
        simpa [readBytes, readBytes_length] using h
      have hstep : (readBytes mem C r (k + 1)).get ⟨i + 1, h⟩
          = (readBytes mem C (r + 1) k).get ⟨i, h'⟩ := rfl
      rw [hstep, ih]
      have harg : r + 1 + i = r + (i + 1) := by omega
      rw [harg]

lemma mod_split (C r w : Nat) (hr : r < C) (hw : w < C) (hne : r ≠ w) :
    ((w + C) - r) % C + ((r + C) - w) % C = C ∧
    0 < ((w + C) - r) % C ∧ 0 < ((r + C) - w) % C := by
  rcases Nat.lt_or_ge r w with hlt | hge
  · have h1 : (w + C) - r = (w - r) + C := by omega
    have h2 : (r + C) - w = C - (w - r) := by omega
    have e1 : ((w + C) - r) % C = w - r := by
      rw [h1, Nat.add_mod_right]; exact Nat.mod_eq_of_lt (by omega)
    have e2 : ((r + C) - w) % C = C - (w - r) := by
      rw [h2]; exact Nat.mod_eq_of_lt (by omega)
    rw [e1, e2]; omega
  · have hgt : w < r := by omega
    have h1 : (r + C) - w = (r - w) + C := by omega
    have h2 : (w + C) - r = C - (r - w) := by omega
    have e1 : ((r + C) - w) % C = r - w := by
      rw [h1, Nat.add_mod_right]; exact Nat.mod_eq_of_lt (by omega)
    have e2 : ((w + C) - r) % C = C - (r - w) := by
      rw [h2]; exact Nat.mod_eq_of_lt (by omega)
    rw [e1, e2]; omega

lemma le_realSize (sz page : Nat) (hp : 0 < page) : sz ≤ realSize sz page := by
  unfold realSize
  have hdm := Nat.div_add_mod sz page
  have hlt : sz % page < page := Nat.mod_lt _ hp
  have hc : page * (sz / page) = sz / page * page := Nat.mul_comm _ _
  by_cases h : 0 < sz % page
  · rw [if_pos h, Nat.add_mul, Nat.one_mul]
    omega
  · rw [if_neg h, Nat.add_zero]
    omega

lemma realSize_dvd (sz page : Nat) : page ∣ realSize sz page := by
  unfold realSize
  exact dvd_mul_left page _

lemma realSize_min (sz page m : Nat) (hp : 0 < page) (hd : page ∣ m) (hm : sz ≤ m) :
    realSize sz page ≤ m := by
  obtain ⟨t, rfl⟩ := hd
  unfold realSize
  have hdm := Nat.div_add_mod sz page
  have hlt : sz % page < page := Nat.mod_lt _ hp
  by_cases h : 0 < sz % page
  · rw [if_pos h]
    have hq : sz / page < t := by
      by_contra hcon
      push_neg at hcon
      have hmul : page * t ≤ page * (sz / page) := mul_le_mul_left' hcon page
      omega
    have h2 : (sz / page + 1) * page ≤ t * page :=
      mul_le_mul_right' (Nat.succ_le_of_lt hq) page
    have h3 : t * page = page * t := Nat.mul_comm _ _
    omega
  · rw [if_neg h, Nat.add_zero]
    have hq : sz / page ≤ t := by
      by_contra hcon
      push_neg at hcon
      have hmul : page * (t + 1) ≤ page * (sz / page) :=
        mul_le_mul_left' (Nat.succ_le_of_lt hcon) page
      have hexp : page * (t + 1) = page * t + page := by ring
      omega
    have h2 : sz / page * page ≤ t * page := mul_le_mul_right' hq page
    have h3 : t * page = page * t := Nat.mul_comm _ _
    have hc : page * (sz / page) = sz / page * page := Nat.mul_comm _ _
    omega

lemma init_ok_cbuff (cb0 : CircularBuffer) (sz : Nat) (env : SysEnv)
    (hok : (CircularBuffer_init cb0 sz env).ok = true) :
    (CircularBuffer_init cb0 sz env).cbuff.size = realSize sz env.pageSize ∧
    (CircularBuffer_init cb0 sz env).cbuff.read = 0 ∧
    (CircularBuffer_init cb0 sz env).cbuff.write = 0 ∧
    (CircularBuffer_init cb0 sz env).cbuff.empty = cb0.empty ∧
    (CircularBuffer_init cb0 sz env).cbuff.mem = cb0.mem ∧
    1 ≤ sz ∧ sz ≤ LONG_MAX := by
  by_cases h1 : sz < 1 ∨ LONG_MAX < sz
  · rw [CircularBuffer_init, if_pos h1] at hok
    exact Bool.noConfusion hok
  by_cases h2 : env.memfdRet < 0
  · rw [CircularBuffer_init, if_neg h1, if_pos h2] at hok
    exact Bool.noConfusion hok
  by_cases h3 : env.ftruncOk = false
  · rw [CircularBuffer_init, if_neg h1, if_neg h2, if_pos h3] at hok
    exact Bool.noConfusion hok
  by_cases h4 : env.reserveOk = false
  · rw [CircularBuffer_init, if_neg h1, if_neg h2, if_neg h3, if_pos h4] at hok
    exact Bool.noConfusion hok
  by_cases h5 : env.map1Ok = false
  · rw [CircularBuffer_init, if_neg h1, if_neg h2, if_neg h3, if_neg h4, if_pos h5] at hok
    exact Bool.noConfusion hok
  by_cases h6 : env.map2Ok = false
  · rw [CircularBuffer_init, if_neg h1, if_neg h2, if_neg h3, if_neg h4, if_neg h5,
        if_pos h6] at hok
    exact Bool.noConfusion hok
  push_neg at h1
  rw [CircularBuffer_init, if_neg (by push_neg; omega : ¬ (sz < 1 ∨ LONG_MAX < sz)),
      if_neg h2, if_neg h3, if_neg h4, if_neg h5, if_neg h6]
  exact ⟨rfl, rfl, rfl, rfl, rfl, by omega, by omega⟩

lemma init_fail_fields (cb0 : CircularBuffer) (sz : Nat) (env : SysEnv)
    (hfail : (CircularBuffer_init cb0 sz env).ok = false) :
    (CircularBuffer_init cb0 sz env).cbuff.size = cb0.size ∧
    (CircularBuffer_init cb0 sz env).cbuff.empty = cb0.empty := by
  by_cases h1 : sz < 1 ∨ LONG_MAX < sz
  · rw [CircularBuffer_init, if_pos h1]
    exact ⟨rfl, rfl⟩
  by_cases h2 : env.memfdRet < 0
  · rw [CircularBuffer_init, if_neg h1, if_pos h2]
    exact ⟨rfl, rfl⟩
  by_cases h3 : env.ftruncOk = false
  · rw [CircularBuffer_init, if_neg h1, if_neg h2, if_pos h3]
    exact ⟨rfl, rfl⟩
  by_cases h4 : env.reserveOk = false
  · rw [CircularBuffer_init, if_neg h1, if_neg h2, if_neg h3, if_pos h4]
    exact ⟨rfl, rfl⟩
  by_cases h5 : env.map1Ok = false
  · rw [CircularBuffer_init, if_neg h1, if_neg h2, if_neg h3, if_neg h4, if_pos h5]
    exact ⟨rfl, rfl⟩
  by_cases h6 : env.map2Ok = false
  · rw [CircularBuffer_init, if_neg h1, if_neg h2, if_neg h3, if_neg h4, if_neg h5, if_pos h6]
    exact ⟨rfl, rfl⟩
  rw [CircularBuffer_init, if_neg h1, if_neg h2, if_neg h3, if_neg h4, if_neg h5,
      if_neg h6] at hfail
  exact Bool.noConfusion hfail

lemma writeChunk_wf (cb cb' : CircularBuffer) (src : Nat → Nat) (n k : Nat)
    (hwf : WF cb) (hw : CircularBuffer_writeChunk cb src n = some (cb', k)) : WF cb' := by
  obtain ⟨h0, hr, hwr⟩ := hwf
  rw [CircularBuffer_writeChunk, if_neg (Nat.pos_iff_ne_zero.mp h0)] at hw
  split at hw
  · split at hw
    · exact Option.noConfusion hw
    · rw [Option.some.injEq, Prod.mk.injEq] at hw
      obtain ⟨hcb, hk⟩ := hw
      subst hcb
      exact ⟨h0, hr, Nat.mod_lt _ h0⟩
  · rw [Option.some.injEq, Prod.mk.injEq] at hw
    obtain ⟨hcb, hk⟩ := hw
    subst hcb
    exact ⟨h0, hr, hwr⟩

lemma readChunk_wf (cb cb' : CircularBuffer) (data : List Nat) (n k : Nat)
    (hwf : WF cb) (hr : CircularBuffer_readChunk cb n = some (cb', data, k)) : WF cb' := by
  obtain ⟨h0, hrd, hwr⟩ := hwf
  rw [CircularBuffer_readChunk] at hr
  split at hr
  · exact Option.noConfusion hr
  split at hr
  · exact Option.noConfusion hr
  rw [Option.some.injEq, Prod.mk.injEq] at hr
  obtain ⟨hcb, _⟩ := hr
  subst hcb
  exact ⟨h0, Nat.mod_lt _ h0, hwr⟩

lemma reachable_wf (cb : CircularBuffer) (h : Reachable cb) : WF cb := by
  induction h with
  | init sz env hpos hok =>
    unfold initRing at hok ⊢
    obtain ⟨hsize, hread, hwrite, _, _, hsz1, _⟩ := init_ok_cbuff CircularBuffer_create sz env hok
    have hle : sz ≤ realSize sz env.pageSize := le_realSize sz env.pageSize hpos
    refine ⟨?_, ?_, ?_⟩ <;> rw [hsize] <;> omega
  | write cb cb' src n k hreach hw ih => exact writeChunk_wf cb cb' src n k ih hw
  | read cb cb' data n k hreach hrd ih => exact readChunk_wf cb cb' data n k ih hrd

lemma accounting_of_wf (cb : CircularBuffer) (h : WF cb) :
    available_bytes_spec cb + free_bytes_spec cb = cb.size ∧
    (available_bytes_spec cb = 0 ↔ cb.empty = true) ∧
    (free_bytes_spec cb = 0 ↔ (cb.read = cb.write ∧ cb.empty = false)) := by
  obtain ⟨h0, hr, hw⟩ := h
  unfold available_bytes_spec free_bytes_spec
  by_cases he : cb.empty = true
  · rw [if_pos he, if_pos he, he]
    refine ⟨by omega, by simp, ?_⟩
    simp only [Bool.true_eq_false, and_false, iff_false]
    omega
  · have he' : cb.empty = false := by
      cases hcb : cb.empty
      · rfl
      · exact absurd hcb he
    rw [if_neg he, if_neg he, he']
    by_cases hrw : cb.read = cb.write
    · rw [if_pos hrw]
      have hsub : cb.read + cb.size - cb.write = cb.size := by omega
      rw [hsub, Nat.mod_self]
      refine ⟨by omega, by simp; omega, by simp [hrw]⟩
    · rw [if_neg hrw]
      obtain ⟨hsum, hpos1, hpos2⟩ :=
        mod_split cb.size cb.read cb.write hr hw hrw
      refine ⟨by omega, by simp; omega, ?_⟩
      refine ⟨fun hzero => absurd hzero (by omega), fun hcon => absurd hcon.1 hrw⟩

/-- Claim C1, counterexample: the accounting invariant fails for the raw
quantities the code computes at lines 225 and 285.  On the reachable state
produced by a successful initialize of 4096 bytes (capacity 4096, cursors
equal, empty flag set) the code-computed available_bytes and free_bytes are
both 0, so their sum is 0 rather than the capacity, and free_bytes = 0 holds
although the cursors are equal with the empty flag set, not clear. -/
theorem accounting_code_counterexample :
    Reachable initedCB ∧ initedCB.empty = true ∧ initedCB.size = 4096 ∧
    available_bytes_code initedCB + free_bytes_code initedCB = 0 ∧
    available_bytes_code initedCB + free_bytes_code initedCB ≠ initedCB.size ∧
    free_bytes_code initedCB = 0 ∧
    ¬ (initedCB.read = initedCB.write ∧ initedCB.empty = false) := by
  refine ⟨Reachable.init 4096 okEnv (by decide) rfl, rfl, rfl, by decide, by decide,
          by decide, by decide⟩

/-- Claim C1 (amended): for every state of an active ring reachable through
initialize, writeChunk and readChunk, with available_bytes and free_bytes
taken as the cursor-algebra quantities of the spec (free = capacity and
avail = 0 when the empty flag is set; avail = capacity when the cursors
coincide with the flag clear; the raw remainders otherwise),
available_bytes + free_bytes = capacity, available_bytes = 0 iff the empty
flag is set, and free_bytes = 0 iff the cursors coincide with the flag
clear.  The quantities the code computes in readChunk and writeChunk agree
with these exactly when the flag is clear and the cursors differ. -/
theorem accounting_invariant (cb : CircularBuffer) (h : Reachable cb) :
    available_bytes_spec cb + free_bytes_spec cb = cb.size ∧
    (available_bytes_spec cb = 0 ↔ cb.empty = true) ∧
    (free_bytes_spec cb = 0 ↔ (cb.read = cb.write ∧ cb.empty = false)) ∧
    (cb.empty = false → cb.read ≠ cb.write →
      available_bytes_spec cb = available_bytes_code cb ∧
      free_bytes_spec cb = free_bytes_code cb) := by
  have hwf := reachable_wf cb h
  obtain ⟨hsum, hav, hfr⟩ := accounting_of_wf cb hwf
  refine ⟨hsum, hav, hfr, ?_⟩
  intro he hrw
  have hne : ¬ (cb.empty = true) := by rw [he]; exact Bool.false_ne_true
  unfold available_bytes_spec available_bytes_code free_bytes_spec free_bytes_code
  rw [if_neg hne, if_neg hne, if_neg hrw]
  exact ⟨rfl, rfl⟩

/-- Witness for accounting_invariant at the reachable ring produced by a
successful initialize of 4096 bytes. -/
theorem accounting_invariant_witness :
    Reachable initedCB ∧
    (available_bytes_spec initedCB + free_bytes_spec initedCB = initedCB.size ∧
     (available_bytes_spec initedCB = 0 ↔ initedCB.empty = true) ∧
     (free_bytes_spec initedCB = 0 ↔
       (initedCB.read = initedCB.write ∧ initedCB.empty = false)) ∧
     (initedCB.empty = false → initedCB.read ≠ initedCB.write →
       available_bytes_spec initedCB = available_bytes_code initedCB ∧
       free_bytes_spec initedCB = free_bytes_code initedCB)) :=
  ⟨Reachable.init 4096 okEnv (by decide) rfl,
   accounting_invariant initedCB (Reachable.init 4096 okEnv (by decide) rfl)⟩

/-- Claim C2 (confirmed): a writeChunk on an active ring that is refused
because the chunk does not fit (empty flag clear, length above the computed
free space) returns 0 and leaves the state — cursors, flag, and ring
contents — exactly as it was. -/
theorem writeChunk_nofit_pure (cb : CircularBuffer) (src : Nat → Nat) (n : Nat)
    (hsz : 0 < cb.size) (he : cb.empty = false) (hfit : free_bytes_code cb < n) :
    CircularBuffer_writeChunk cb src n = some (cb, 0) := by
  have hguard : ¬ (cb.empty = true ∨ n ≤ free_bytes_code cb) := by
    intro hcon
    rcases hcon with h1 | h2
    · rw [he] at h1
      exact Bool.noConfusion h1
    · omega
  rw [CircularBuffer_writeChunk, if_neg (Nat.pos_iff_ne_zero.mp hsz), if_neg hguard]

/-- Witness for writeChunk_nofit_pure: a ring of capacity 4096 holding 4000
bytes refuses a 200-byte chunk and is returned unchanged with count 0. -/
theorem writeChunk_nofit_pure_witness :
    (0 < tightCB.size ∧ tightCB.empty = false ∧ free_bytes_code tightCB < 200) ∧
    CircularBuffer_writeChunk tightCB src7 200 = some (tightCB, 0) :=
  ⟨⟨by decide, rfl, by decide⟩,
   writeChunk_nofit_pure tightCB src7 200 (by decide) rfl (by decide)⟩

/-- Claim C5, counterexample: advancing the read position by zero is not a
no-op on the empty flag.  On a full active ring (coinciding cursors, empty
flag clear) CircularBuffer_advanceReadPos with n = 0 sets the empty flag,
because the flag update at line 68 compares the unchanged cursors. -/
theorem advance_zero_counterexample :
    fullFlagCB.empty = false ∧
    (CircularBuffer_advanceReadPos fullFlagCB 0).empty = true ∧
    (CircularBuffer_advanceReadPos fullFlagCB 0).empty ≠ fullFlagCB.empty := by
  refine ⟨rfl, rfl, by decide⟩

/-- Claim C5 (amended): for every cursor state of an active ring with both
cursors in range, advance_write(0) is a complete no-op, and advance_read(0)
leaves both cursors unchanged and is a complete no-op except on a full ring
(r = w with the empty flag clear), where it sets the empty flag; after a
full fill, advance_write(capacity) leaves the write cursor in place and the
empty flag clear. -/
theorem advance_zero_amended (cb : CircularBuffer)
    (hr : cb.read < cb.size) (hw : cb.write < cb.size) :
    CircularBuffer_advanceWritePos cb 0 = cb ∧
    (CircularBuffer_advanceReadPos cb 0).read = cb.read ∧
    (CircularBuffer_advanceReadPos cb 0).write = cb.write ∧
    (¬ (cb.read = cb.write ∧ cb.empty = false) →
      CircularBuffer_advanceReadPos cb 0 = cb) ∧
    (cb.read = cb.write → cb.empty = false →
      (CircularBuffer_advanceReadPos cb 0).empty = true) ∧
    (CircularBuffer_advanceWritePos cb cb.size).write = cb.write ∧
    (CircularBuffer_advanceWritePos cb cb.size).empty = false := by
  have h0 : 0 < cb.size := Nat.lt_of_le_of_lt (Nat.zero_le _) hr
  have er : (cb.read + 0) % cb.size = cb.read := by
    rw [Nat.add_zero]
    exact Nat.mod_eq_of_lt hr
  have ew : (cb.write + 0) % cb.size = cb.write := by
    rw [Nat.add_zero]
    exact Nat.mod_eq_of_lt hw
  refine ⟨?_, ?_, ?_, ?_, ?_, ?_, ?_⟩
  · unfold CircularBuffer_advanceWritePos
    rw [ew, if_neg (by omega : ¬ (0 : Nat) ≠ 0)]
  · show (cb.read + 0) % cb.size = cb.read
    exact er
  · rfl
  · intro hcon
    refine CircularBuffer.ext rfl rfl rfl ?_ er rfl rfl
    show (if (cb.read + 0) % cb.size = cb.write then true else cb.empty) = cb.empty
    rw [er]
    by_cases hrw : cb.read = cb.write
    · have hem : cb.empty = true := by
        cases hemp : cb.empty
        · exact absurd ⟨hrw, hemp⟩ hcon
        · rfl
      rw [if_pos hrw, hem]
    · rw [if_neg hrw]
  · intro hrw hem
    show (if (cb.read + 0) % cb.size = cb.write then true else cb.empty) = true
    rw [er]
    exact if_pos hrw
  · show (cb.write + cb.size) % cb.size = cb.write
    rw [Nat.add_mod_right]
    exact Nat.mod_eq_of_lt hw
  · show (if cb.size ≠ 0 then false else cb.empty) = false
    exact if_pos (by omega)

/-- Witness for advance_zero_amended at a mid-life active ring with the
cursors apart. -/
theorem advance_zero_amended_witness :
    (sampleCB.read < sampleCB.size ∧ sampleCB.write < sampleCB.size) ∧
    (CircularBuffer_advanceWritePos sampleCB 0 = sampleCB ∧
     (CircularBuffer_advanceReadPos sampleCB 0).read = sampleCB.read ∧
     (CircularBuffer_advanceReadPos sampleCB 0).write = sampleCB.write ∧
     (¬ (sampleCB.read = sampleCB.write ∧ sampleCB.empty = false) →
       CircularBuffer_advanceReadPos sampleCB 0 = sampleCB) ∧
     (sampleCB.read = sampleCB.write → sampleCB.empty = false →
       (CircularBuffer_advanceReadPos sampleCB 0).empty = true) ∧
     (CircularBuffer_advanceWritePos sampleCB sampleCB.size).write = sampleCB.write ∧
     (CircularBuffer_advanceWritePos sampleCB sampleCB.size).empty = false) :=
  ⟨⟨by decide, by decide⟩, advance_zero_amended sampleCB (by decide) (by decide)⟩

/-- Claim C10, counterexample: writeChunk does not return n for every chunk
accepted through the empty-flag branch.  On the freshly initialized
4096-byte ring a 12288-byte chunk passes the acceptance test at line 227 —
there is no comparison of n against the capacity — but the unchecked memcpy
at line 232 then writes past the 2*4096-byte mapped window: the call faults
(out of bounds) instead of performing the copy and returning 12288. -/
theorem writeChunk_overrun_counterexample :
    initedCB.empty = true ∧ initedCB.size = 4096 ∧
    2 * initedCB.size < initedCB.write + 12288 ∧
    CircularBuffer_writeChunk initedCB src7 12288 = none := by
  exact ⟨rfl, rfl, by decide, rfl⟩

/-- Claim C10 (amended): on an active ring with the empty flag set, the
acceptance test at line 227 passes through its empty-flag disjunct for every
length n, with no comparison of n against the capacity or the mapped window.
When the copy stays inside the 2*capacity window (w + n at most 2*capacity)
the call copies, advances the write cursor by n modulo the capacity and
returns n — even for n greater than the capacity, where the ring content is
whatever the self-aliasing memcpy leaves (for n at most the capacity it is
exactly the modular copy).  When n overruns the window the unchecked memcpy
runs past the double mapping and the call faults instead of returning. -/
theorem writeChunk_empty_unchecked (cb : CircularBuffer) (src : Nat → Nat) (n : Nat)
    (he : cb.empty = true) (hsz : 0 < cb.size) :
    (cb.write + n ≤ 2 * cb.size →
      ∃ cb', CircularBuffer_writeChunk cb src n = some (cb', n) ∧
        cb'.write = (cb.write + n) % cb.size ∧
        cb'.read = cb.read ∧ cb'.size = cb.size ∧
        (n ≤ cb.size → cb'.mem = copyIn cb.mem cb.size cb.write src n) ∧
        (0 < n → cb'.empty = false)) ∧
    (2 * cb.size < cb.write + n → CircularBuffer_writeChunk cb src n = none) := by
  constructor
  · intro hwin
    rw [CircularBuffer_writeChunk, if_neg (Nat.pos_iff_ne_zero.mp hsz),
        if_pos (Or.inl he), if_neg (by omega : ¬ 2 * cb.size < cb.write + n)]
    refine ⟨_, rfl, rfl, rfl, rfl, fun _ => rfl, ?_⟩
    intro hn
    show (if n ≠ 0 then false else cb.empty) = false
    exact if_pos (by omega)
  · intro hover
    rw [CircularBuffer_writeChunk, if_neg (Nat.pos_iff_ne_zero.mp hsz),
        if_pos (Or.inl he), if_pos hover]

/-- Witness for writeChunk_empty_unchecked: the freshly initialized ring of
capacity 4096 accepts a 6000-byte chunk — larger than its capacity, inside
its 8192-byte window — and returns 6000. -/
theorem writeChunk_empty_unchecked_witness :
    (initedCB.empty = true ∧ 0 < initedCB.size ∧ initedCB.size < 6000 ∧
     initedCB.write + 6000 ≤ 2 * initedCB.size) ∧
    ((initedCB.write + 6000 ≤ 2 * initedCB.size →
       ∃ cb', CircularBuffer_writeChunk initedCB src7 6000 = some (cb', 6000) ∧
         cb'.write = (initedCB.write + 6000) % initedCB.size ∧
         cb'.read = initedCB.read ∧ cb'.size = initedCB.size ∧
         (6000 ≤ initedCB.size →
           cb'.mem = copyIn initedCB.mem initedCB.size initedCB.write src7 6000) ∧
         (0 < 6000 → cb'.empty = false)) ∧
     (2 * initedCB.size < initedCB.write + 6000 →
       CircularBuffer_writeChunk initedCB src7 6000 = none)) :=
  ⟨⟨rfl, by decide, by decide, by decide⟩,
   writeChunk_empty_unchecked initedCB src7 6000 rfl (by decide)⟩

/-- Claim C6, counterexample: CircularBuffer_free does not return the ring
to the uninitialized state.  Starting from the reachable full ring obtained
by writing 4096 bytes into a freshly initialized 4096-byte ring, one call to
free leaves size returning 4096 (not 0) and empty returning false (not
true), because lines 384-387 of the source reset only the fd, the buffer
pointer and the two cursors.  Two calls do yield the same state as one. -/
theorem free_counterexample :
    ∃ full, CircularBuffer_writeChunk initedCB src7 4096 = some (full, 4096) ∧
      Reachable full ∧
      CircularBuffer_size (CircularBuffer_free full) ≠ 0 ∧
      CircularBuffer_empty (CircularBuffer_free full) ≠ true ∧
      CircularBuffer_free (CircularBuffer_free full) = CircularBuffer_free full := by
  refine ⟨_, rfl, ?_, by decide, by decide, rfl⟩
  exact Reachable.write initedCB _ src7 4096 4096
    (Reachable.init 4096 okEnv (by decide) rfl) rfl

/-- Claim C6 (amended): CircularBuffer_free zeroes the fd, nulls the buffer
pointer and zeroes both cursors, and it is idempotent — the state after two
consecutive calls equals the state after one — but it leaves the size and
empty fields unchanged, so after freeing an active ring, size returns the
old capacity and empty returns the flag value from before the call, not 0
and true. -/
theorem free_idempotent_fields (cb : CircularBuffer) :
    CircularBuffer_free (CircularBuffer_free cb) = CircularBuffer_free cb ∧
    (CircularBuffer_free cb).fd = 0 ∧
    (CircularBuffer_free cb).buffer = none ∧
    (CircularBuffer_free cb).read = 0 ∧
    (CircularBuffer_free cb).write = 0 ∧
    CircularBuffer_size (CircularBuffer_free cb) = CircularBuffer_size cb ∧
    CircularBuffer_empty (CircularBuffer_free cb) = CircularBuffer_empty cb :=
  ⟨rfl, rfl, rfl, rfl, rfl, rfl, rfl⟩

/-- Claim C7, counterexample: after an initialize that failed (here: at the
ftruncate step), size does return 0 and empty does return true, but a
subsequent writeChunk is not a safe no-op returning 0 — it evaluates
free_bytes modulo the zero capacity at line 225, undefined behaviour in C,
modelled as none — and a subsequent readChunk does not return 0 either: it
blocks forever in the wait loop of lines 281-283, likewise modelled as
none. -/
theorem init_failed_counterexample :
    (initRing 4096 badEnv).ok = false ∧
    CircularBuffer_size (initRing 4096 badEnv).cbuff = 0 ∧
    CircularBuffer_empty (initRing 4096 badEnv).cbuff = true ∧
    CircularBuffer_writeChunk (initRing 4096 badEnv).cbuff src7 1 = none ∧
    CircularBuffer_readChunk (initRing 4096 badEnv).cbuff 1 = none := by
  exact ⟨rfl, rfl, rfl, rfl, rfl⟩

/-- Claim C7 (amended): every failed initialize on a freshly created ring
leaves a ring on which size returns 0 and empty returns true; but a
subsequent writeChunk, instead of being a no-op returning 0, performs a
remainder modulo the zero capacity (undefined behaviour in C), and a
subsequent readChunk, instead of returning 0, blocks forever on the empty
flag; neither call returns normally. -/
theorem init_failed_ring_behaviour (sz : Nat) (env : SysEnv)
    (hfail : (initRing sz env).ok = false) :
    CircularBuffer_size (initRing sz env).cbuff = 0 ∧
    CircularBuffer_empty (initRing sz env).cbuff = true ∧
    (∀ src n, CircularBuffer_writeChunk (initRing sz env).cbuff src n = none) ∧
    (∀ n, CircularBuffer_readChunk (initRing sz env).cbuff n = none) := by
  unfold initRing at hfail ⊢
  obtain ⟨hsize, hempty⟩ := init_fail_fields CircularBuffer_create sz env hfail
  have hsize0 : (CircularBuffer_init CircularBuffer_create sz env).cbuff.size = 0 := hsize
  have hempty1 : (CircularBuffer_init CircularBuffer_create sz env).cbuff.empty = true := hempty
  refine ⟨hsize0, hempty1, ?_, ?_⟩
  · intro src n
    rw [CircularBuffer_writeChunk, if_pos hsize0]
  · intro n
    rw [CircularBuffer_readChunk, if_pos hempty1]

/-- Witness for init_failed_ring_behaviour at the concrete failing
environment (ftruncate fails) with requested size 4096. -/
theorem init_failed_ring_behaviour_witness :
    (initRing 4096 badEnv).ok = false ∧
    (CircularBuffer_size (initRing 4096 badEnv).cbuff = 0 ∧
     CircularBuffer_empty (initRing 4096 badEnv).cbuff = true ∧
     (∀ src n, CircularBuffer_writeChunk (initRing 4096 badEnv).cbuff src n = none) ∧
     (∀ n, CircularBuffer_readChunk (initRing 4096 badEnv).cbuff n = none)) :=
  ⟨rfl, init_failed_ring_behaviour 4096 badEnv rfl⟩

/-- Whether a call to CircularBuffer_free would close the descriptor: the
close at line 375 runs only when the buffer pointer is non-NULL. -/
def CircularBuffer_free_closes_fd (cb : CircularBuffer) : Bool :=
  cb.buffer.isSome

/-- Claim C8 (code bug): when initialize fails at the ftruncate step after
memfd_create has succeeded, the source jumps to the unlock-and-return label
without closing the descriptor (no error path of CircularBuffer_init
releases anything), so the call returns failure while the backing descriptor
is still held — contrary to the claim that every partially acquired resource
is released before returning.  The later CircularBuffer_free does not
recover it either: its close at line 375 is guarded by buffer being
non-NULL, and buffer is still NULL on this path. -/
theorem init_leak_on_ftruncate_failure :
    (initRing 4096 badEnv).ok = false ∧
    (initRing 4096 badEnv).res.fdOpen = true ∧
    (initRing 4096 badEnv).cbuff.buffer = none ∧
    CircularBuffer_free_closes_fd (initRing 4096 badEnv).cbuff = false := by
  exact ⟨rfl, rfl, rfl, rfl⟩

/-- Claim C3 (confirmed): for an active ring, readChunk blocks while the
empty flag is set (modelled: the call does not return), and once the flag is
clear it copies exactly min(n, available_bytes) bytes — available_bytes
being the quantity the code computes at line 285 — starting at the read
cursor through the doubly mapped window, advances the read cursor by that
amount modulo the capacity, and returns that count. -/
theorem readChunk_spec (cb : CircularBuffer) (n : Nat) (hsz : 0 < cb.size) :
    (cb.empty = true → CircularBuffer_readChunk cb n = none) ∧
    (cb.empty = false →
      ∃ cb' data,
        CircularBuffer_readChunk cb n = some (cb', data, min n (available_bytes_code cb)) ∧
        cb'.read = (cb.read + min n (available_bytes_code cb)) % cb.size ∧
        cb'.write = cb.write ∧ cb'.size = cb.size ∧ cb'.mem = cb.mem ∧
        data.length = min n (available_bytes_code cb) ∧
        (∀ i (hi : i < data.length),
          data.get ⟨i, hi⟩ = cb.mem ((cb.read + i) % cb.size))) := by
  have hszne : cb.size ≠ 0 := Nat.pos_iff_ne_zero.mp hsz
  constructor
  · intro he
    rw [CircularBuffer_readChunk, if_pos he]
  · intro he
    have hne : ¬ (cb.empty = true) := by rw [he]; exact Bool.false_ne_true
    have hmin : bytesReadCount cb n = min n (available_bytes_code cb) := by
      unfold bytesReadCount
      rcases Nat.lt_or_ge (available_bytes_code cb) n with h | h
      · rw [if_pos h, Nat.min_eq_right (Nat.le_of_lt h)]
      · rw [if_neg (by omega), Nat.min_eq_left h]
    refine ⟨CircularBuffer_advanceReadPos cb (bytesReadCount cb n),
            readBytes cb.mem cb.size cb.read (bytesReadCount cb n),
            ?_, ?_, rfl, rfl, rfl, ?_, ?_⟩
    · rw [← hmin, CircularBuffer_readChunk, if_neg hne, if_neg hszne]
    · show (cb.read + bytesReadCount cb n) % cb.size = _
      rw [hmin]
    · rw [readBytes_length, hmin]
    · intro i hi
      exact readBytes_get cb.mem cb.size (bytesReadCount cb n) cb.read i hi

/-- Witness for readChunk_spec at a mid-life active ring holding 3000 bytes,
reading 1000. -/
theorem readChunk_spec_witness :
    0 < sampleCB.size ∧
    ((sampleCB.empty = true → CircularBuffer_readChunk sampleCB 1000 = none) ∧
     (sampleCB.empty = false →
       ∃ cb' data,
         CircularBuffer_readChunk sampleCB 1000 =
           some (cb', data, min 1000 (available_bytes_code sampleCB)) ∧
         cb'.read = (sampleCB.read + min 1000 (available_bytes_code sampleCB)) % sampleCB.size ∧
         cb'.write = sampleCB.write ∧ cb'.size = sampleCB.size ∧ cb'.mem = sampleCB.mem ∧
         data.length = min 1000 (available_bytes_code sampleCB) ∧
         (∀ i (hi : i < data.length),
           data.get ⟨i, hi⟩ = sampleCB.mem ((sampleCB.read + i) % sampleCB.size)))) :=
  ⟨by decide, readChunk_spec sampleCB 1000 (by decide)⟩

/-- Claim C4, counterexample: readChunk returns zero with valid arguments.
Writing 4096 bytes into the freshly initialized 4096-byte ring yields a
reachable full active ring (cursors equal, empty flag clear); readChunk on
it with n = 10 computes available_bytes = 0 at line 285, copies nothing,
returns 0 — and, advancing by zero, marks the full ring empty. -/
theorem readChunk_zero_counterexample :
    ∃ full, CircularBuffer_writeChunk initedCB src7 4096 = some (full, 4096) ∧
      Reachable full ∧ full.empty = false ∧ 0 < full.size ∧
      ∃ cb' data, CircularBuffer_readChunk full 10 = some (cb', data, 0) ∧
        cb'.empty = true := by
  refine ⟨_, rfl, ?_, rfl, by decide, _, _, rfl, rfl⟩
  exact Reachable.write initedCB _ src7 4096 4096
    (Reachable.init 4096 okEnv (by decide) rfl) rfl

/-- Claim C4 (amended): for an active ring with cursors in range and the
empty flag clear, readChunk with non-null arguments returns the count the
code selects at line 289, and that count is strictly positive exactly when
the requested length is nonzero and the cursors differ; in particular it
returns 0 when n = 0 and on a full ring (cursors equal, flag clear). -/
theorem readChunk_count_positive_iff (cb : CircularBuffer) (n : Nat)
    (hsz : 0 < cb.size) (hr : cb.read < cb.size) (hw : cb.write < cb.size)
    (he : cb.empty = false) :
    ∃ cb' data, CircularBuffer_readChunk cb n = some (cb', data, bytesReadCount cb n) ∧
      (0 < bytesReadCount cb n ↔ 0 < n ∧ cb.read ≠ cb.write) := by
  have hne : ¬ (cb.empty = true) := by rw [he]; exact Bool.false_ne_true
  refine ⟨CircularBuffer_advanceReadPos cb (bytesReadCount cb n),
          readBytes cb.mem cb.size cb.read (bytesReadCount cb n), ?_, ?_⟩
  · rw [CircularBuffer_readChunk, if_neg hne, if_neg (Nat.pos_iff_ne_zero.mp hsz)]
  · unfold bytesReadCount
    by_cases hrw : cb.read = cb.write
    · have hav : available_bytes_code cb = 0 := by
        unfold available_bytes_code
        have hsub : (cb.write + cb.size) - cb.read = cb.size := by omega
        rw [hsub, Nat.mod_self]
      rw [hav]
      constructor
      · intro hpos
        exfalso
        by_cases hn : 0 < n
        · rw [if_pos hn] at hpos
          omega
        · rw [if_neg hn] at hpos
          omega
      · rintro ⟨_, hcon⟩
        exact absurd hrw hcon
    · have hav : 0 < available_bytes_code cb :=
        (mod_split cb.size cb.read cb.write hr hw hrw).2.1
      constructor
      · intro hpos
        refine ⟨?_, hrw⟩
        by_cases hlt : available_bytes_code cb < n
        · omega
        · rw [if_neg hlt] at hpos
          omega
      · rintro ⟨hn, _⟩
        by_cases hlt : available_bytes_code cb < n
        · rw [if_pos hlt]
          exact hav
        · rw [if_neg hlt]
          exact hn

/-- Witness for readChunk_count_positive_iff at a mid-life ring holding
3000 bytes, reading 1000 (positive count). -/
theorem readChunk_count_positive_iff_witness :
    (0 < sampleCB.size ∧ sampleCB.read < sampleCB.size ∧
     sampleCB.write < sampleCB.size ∧ sampleCB.empty = false) ∧
    (∃ cb' data,
      CircularBuffer_readChunk sampleCB 1000 = some (cb', data, bytesReadCount sampleCB 1000) ∧
      (0 < bytesReadCount sampleCB 1000 ↔ 0 < 1000 ∧ sampleCB.read ≠ sampleCB.write)) :=
  ⟨⟨by decide, by decide, by decide, rfl⟩,
   readChunk_count_positive_iff sampleCB 1000 (by decide) (by decide) (by decide) rfl⟩

/-- Claim C9 (confirmed): for every accepted requested size, a successful
initialize on a fresh ring sets the capacity to the requested size rounded
up to a whole multiple of the host page size — a multiple of the page size,
at least the requested size, and the smallest such multiple — with both
cursors 0 and the empty flag still set. -/
theorem init_capacity_rounding (sz : Nat) (env : SysEnv)
    (_h1 : 1 ≤ sz) (_h2 : sz ≤ LONG_MAX) (hp : 0 < env.pageSize)
    (hok : (initRing sz env).ok = true) :
    (initRing sz env).cbuff.size = realSize sz env.pageSize ∧
    env.pageSize ∣ (initRing sz env).cbuff.size ∧
    sz ≤ (initRing sz env).cbuff.size ∧
    (∀ m, env.pageSize ∣ m → sz ≤ m → (initRing sz env).cbuff.size ≤ m) ∧
    (initRing sz env).cbuff.read = 0 ∧
    (initRing sz env).cbuff.write = 0 ∧
    (initRing sz env).cbuff.empty = true := by
  unfold initRing at hok ⊢
  obtain ⟨hsize, hread, hwrite, hempty, _, _, _⟩ :=
    init_ok_cbuff CircularBuffer_create sz env hok
  refine ⟨hsize, ?_, ?_, ?_, hread, hwrite, ?_⟩
  · rw [hsize]
    exact realSize_dvd sz env.pageSize
  · rw [hsize]
    exact le_realSize sz env.pageSize hp
  · intro m hdm hm
    rw [hsize]
    exact realSize_min sz env.pageSize m hp hdm hm
  · rw [hempty]
    rfl

/-- Witness for init_capacity_rounding: requested size 5000 on a
4096-byte-page host yields capacity 8192. -/
theorem init_capacity_rounding_witness :
    (1 ≤ 5000 ∧ 5000 ≤ LONG_MAX ∧ 0 < okEnv.pageSize ∧ (initRing 5000 okEnv).ok = true) ∧
    ((initRing 5000 okEnv).cbuff.size = realSize 5000 okEnv.pageSize ∧
     okEnv.pageSize ∣ (initRing 5000 okEnv).cbuff.size ∧
     5000 ≤ (initRing 5000 okEnv).cbuff.size ∧
     (∀ m, okEnv.pageSize ∣ m → 5000 ≤ m → (initRing 5000 okEnv).cbuff.size ≤ m) ∧
     (initRing 5000 okEnv).cbuff.read = 0 ∧
     (initRing 5000 okEnv).cbuff.write = 0 ∧
     (initRing 5000 okEnv).cbuff.empty = true) ∧
    (initRing 5000 okEnv).cbuff.size = 8192 :=
  ⟨⟨by decide, by decide, by decide, rfl⟩,
   init_capacity_rounding 5000 okEnv (by decide) (by decide) (by decide) rfl,
   by decide⟩
